import Mathlib

/-!
Verification of the marshmallow utility module (`src/marshmallow/utils.py` and
`src/marshmallow/datetime.py`) against its specification.

The Python source is shallowly embedded: Python dicts become association
lists over an inductive value type `PyVal`, exceptions become `Except` /
`Option` results, and the ISO8601 regular expressions are embedded as
deterministic character-list matchers that follow the regex text
group by group.
-/

set_option maxHeartbeats 1000000

namespace Marshmallow

/-! ## Python values and dictionaries

Python values as seen by `get_value` / `set_value`: we need `None`, the
`missing` sentinel, numbers, strings and (string-keyed) dicts.  A dict is an
insertion-ordered association list, matching CPython dict semantics for the
operations used by the source (`in`, `[]`, `[]=`).
-/

inductive PyVal where
  | none : PyVal
  | missingV : PyVal
  | int : Int → PyVal
  | str : String → PyVal
  | dict : List (String × PyVal) → PyVal

abbrev Dct := List (String × PyVal)

/-- Python `key in dct` / `dct[key]`: first binding of the key, if any. -/
def alookup : Dct → String → Option PyVal
  | [], _ => Option.none
  | (k, v) :: rest, key => if k = key then some v else alookup rest key

/-- Python `dct[key] = v`: replace the value of an existing key in place,
append a new key at the end (CPython insertion-order semantics). -/
def ainsert : Dct → String → PyVal → Dct
  | [], key, v => [(key, v)]
  | (k, w) :: rest, key, v =>
      if k = key then (k, v) :: rest else (k, w) :: ainsert rest key v

/-! ## `set_value`

Embedding of `set_value(dct, key, value)` (utils.py lines 212-238).  The
Python function mutates `dct` in place and raises `ValueError` on a path
conflict; the embedding returns the final state of the dict together with
`some errorMessage` when the Python code would raise.  The final state
matters because claim C10 is about what the dict looks like after a raise.
-/

def conflictMsg (path : List String) : String :=
  "String path conflicts with current dictionary structure at " ++
    String.intercalate "." path

/-- The loop `for i, part in enumerate(parts[:-1]): ...` followed by
`dct[parts[-1]] = value`.  `pre` is the list of already-walked parts
(used only for the error message, mirroring `parts[:i+1]`). -/
def setValueAux : Dct → List String → List String → PyVal → Dct × Option String
  | d, [], _, _ => (d, Option.none)
  | d, [last], _, v => (ainsert d last v, Option.none)
  | d, p :: q :: rest, pre, v =>
      match alookup d p with
      | Option.none =>
          -- `dct[part] = {}` then continue the walk inside the new dict
          let r := setValueAux [] (q :: rest) (pre ++ [p]) v
          (ainsert d p (.dict r.1), r.2)
      | some (.dict sub) =>
          let r := setValueAux sub (q :: rest) (pre ++ [p]) v
          (ainsert d p (.dict r.1), r.2)
      | some _ => (d, some (conflictMsg (pre ++ [p])))

/-- Python `s.split(sep)` for a single-character separator, over the
character list of the string. -/
def splitChar (sep : Char) : List Char → List (List Char)
  | [] => [[]]
  | c :: rest =>
      let r := splitChar sep rest
      if c = sep then [] :: r
      else
        match r with
        | [] => [[c]]
        | h :: t => (c :: h) :: t

/-- `key.split('.')`, back at the level of strings. -/
def splitDot (key : String) : List String :=
  (splitChar '.' key.toList).map (fun l => ⟨l⟩)

def set_value (d : Dct) (key : String) (v : PyVal) : Dct × Option String :=
  if '.' ∈ key.toList then setValueAux d (splitDot key) [] v
  else (ainsert d key v, Option.none)

/-- The nested-dict chain `{q: {r: {... : v}}}` that the walk builds below a
fresh first segment. -/
def nestVal : List String → PyVal → Dct
  | [], _ => []
  | [last], v => [(last, v)]
  | q :: rest, v => [(q, .dict (nestVal rest v))]

/-- Specification of when the walk of `set_value` hits a conflict: the first
non-final segment whose existing value is not a dict, as a path. -/
def walkConflict : Dct → List String → Option (List String)
  | _, [] => Option.none
  | _, [_] => Option.none
  | d, p :: q :: rest =>
      match alookup d p with
      | Option.none => Option.none
      | some (.dict sub) => (walkConflict sub (q :: rest)).map (fun t => p :: t)
      | some _ => some [p]

/-! ## `get_value`

Embedding of `get_value(obj, key, default=missing)` (utils.py lines
193-210).  A Python object is abstracted by what the function observes:
whether it has `__getitem__`, what `obj[key]` returns or raises, and what
attributes it exposes (`getattrOpt name = none` models "attribute
missing").  Attribute names in CPython must be strings: `getattr(obj, key,
default)` raises `TypeError` for an integer `key` no matter the default,
and both `getattr` calls in `get_value` sit outside the `try` block, so
that `TypeError` propagates out of `get_value`.
-/

inductive PyExc where
  | keyError | indexError | typeError | attributeError | other
  deriving DecidableEq

/-- The exception classes caught by the `except` clause in `get_value`. -/
def caughtByGetValue : PyExc → Bool
  | .keyError => true
  | .indexError => true
  | .typeError => true
  | .attributeError => true
  | .other => false

/-- Keys are integers or strings ("Key may be an integer (for sequence
indexing) or a string"). -/
abbrev PyKey := Int ⊕ String

structure PyObj where
  hasGetitem : Bool
  getitem : PyKey → Except PyExc PyVal
  getattrOpt : String → Option PyVal

/-- Python `getattr(obj, key, default)`: for a string name it returns the
attribute or the default, never raising; for an integer name CPython raises
`TypeError: attribute name must be string` regardless of the default. -/
def getattrDefault (obj : PyObj) (key : PyKey) (default : PyVal) :
    Except PyExc PyVal :=
  match key with
  | .inl _ => .error .typeError
  | .inr name => .ok ((obj.getattrOpt name).getD default)

def get_value (obj : PyObj) (key : PyKey) (default : PyVal) : Except PyExc PyVal :=
  if obj.hasGetitem = false then getattrDefault obj key default
  else
    match obj.getitem key with
    | .ok v => .ok v
    | .error e =>
        if caughtByGetValue e then getattrDefault obj key default
        else .error e

/-! ## The `missing` sentinel

Embedding of the `_Missing` class (utils.py lines 31-44): a type with a
single element, so "exactly one instance" and "equality is identity" hold by
construction, plus the three special methods. -/

inductive MissingType where
  | mk
  deriving DecidableEq

def missing : MissingType := .mk

/-- `_Missing.__bool__` returns `False`. -/
def MissingType.toBool : MissingType → Bool
  | .mk => false

/-- `_Missing.__copy__` returns `self`. -/
def MissingType.copy (m : MissingType) : MissingType := m

/-- `_Missing.__deepcopy__` ignores the memo dict and returns `self`. -/
def MissingType.deepcopy (m : MissingType) (_memo : List (Int × PyVal)) :
    MissingType := m

/-! ## `timedelta_to_microseconds`

Embedding of utils.py lines 274-279.  A Python `timedelta` is normalized to
`days` (possibly negative), `0 ≤ seconds < 86400`, `0 ≤ microseconds <
1000000`; the function reads exactly these three attributes. -/

structure Timedelta where
  days : Int
  seconds : Nat
  microseconds : Nat

def timedelta_to_microseconds (value : Timedelta) : Int :=
  (value.days * 86400 + (value.seconds : Int)) * 1000000 + (value.microseconds : Int)

/-! ## ISO8601 datetime parsing

Embedding of `_iso8601_datetime_re` (utils.py line 99):

  (?P<year>\d{4})-(?P<month>\d{1,2})-(?P<day>\d{1,2})[T ]
  (?P<hour>\d{1,2}):(?P<minute>\d{1,2})
  (?::(?P<second>\d{1,2})(?:\.(?P<microsecond>\d{1,6})\d{0,6})?)?
  (?P<tzinfo>Z|[+-]\d{2}(?::?\d{2})?)?$

used with `re.match` (anchored at the start, `$` at the end), and of
`_iso8601_time_re` (line 101), which is the hour..microsecond part with
neither timezone group nor `$` anchor, i.e. a prefix match.

The regex is deterministic on its alphabet (every choice point is decided
by the next character, and backtracking over the bounded digit repetitions
cannot turn a failure into a success because each repetition is followed by
a non-digit requirement), so it is embedded as a straight-line matcher over
`List Char`. -/

def isDig (c : Char) : Bool := 48 ≤ c.toNat && c.toNat ≤ 57

def digitVal (c : Char) : Nat := c.toNat - 48

/-- Python `int(s)` on a (non-empty) string of decimal digits. -/
def natOfDigits (ds : List Char) : Nat :=
  ds.foldl (fun a c => a * 10 + digitVal c) 0

/-- Greedily take at most `n` leading digit characters. -/
def takeUpTo : Nat → List Char → List Char × List Char
  | 0, cs => ([], cs)
  | _ + 1, [] => ([], [])
  | n + 1, c :: cs =>
      if isDig c then
        let r := takeUpTo n cs
        (c :: r.1, r.2)
      else ([], c :: cs)

/-- `\d{mn,mx}` (greedy, followed in the regex by a non-digit requirement). -/
def reDigits (mn mx : Nat) (cs : List Char) : Option (List Char × List Char) :=
  let r := takeUpTo mx cs
  if mn ≤ r.1.length then some r else Option.none

/-- A literal character in the regex. -/
def lit (c : Char) (cs : List Char) : Option (List Char) :=
  match cs with
  | [] => Option.none
  | c0 :: rest => if c0 = c then some rest else Option.none

/-- The `[T ]` separator between date and time. -/
def litTorSpace (cs : List Char) : Option (List Char) :=
  match cs with
  | [] => Option.none
  | c0 :: rest => if c0 = 'T' ∨ c0 = ' ' then some rest else Option.none

/-- The optional group `(?::(?P<second>\d{1,2})(?:\.(?P<microsecond>\d{1,6})\d{0,6})?)?`
as it behaves inside the anchored datetime regex.  Returns the raw captures
of `second` and `microsecond` (the latter at most 6 digits; up to 6 further
fraction digits are consumed and discarded) and the remaining input. -/
def optSecondsDT (cs : List Char) :
    Option (Option (List Char) × Option (List Char) × List Char) :=
  match cs with
  | ':' :: cs1 =>
      match reDigits 1 2 cs1 with
      | Option.none => Option.none
      | some (ss, cs2) =>
          match cs2 with
          | '.' :: cs3 =>
              let ds := cs3.takeWhile isDig
              if 1 ≤ ds.length ∧ ds.length ≤ 12 then
                some (some ss, some (ds.take 6), cs3.drop ds.length)
              else Option.none
          | _ => some (some ss, Option.none, cs2)
  | _ => some (Option.none, Option.none, cs)

/-- The optional group `(?P<tzinfo>Z|[+-]\d{2}(?::?\d{2})?)?`.  Returns the
raw capture (the matched designator text) and the remaining input. -/
def optTz (cs : List Char) : Option (Option (List Char) × List Char) :=
  match cs with
  | 'Z' :: rest => some (some ['Z'], rest)
  | c :: rest =>
      if c = '+' ∨ c = '-' then
        match reDigits 2 2 rest with
        | Option.none => Option.none
        | some (h2, cs2) =>
            match cs2 with
            | ':' :: cs3 =>
                match reDigits 2 2 cs3 with
                | Option.none => Option.none
                | some (m2, cs4) => some (some (c :: (h2 ++ ':' :: m2)), cs4)
            | _ =>
                match reDigits 2 2 cs2 with
                | some (m2, cs4) => some (some (c :: (h2 ++ m2)), cs4)
                | Option.none => some (some (c :: h2), cs2)
      else some (Option.none, c :: rest)
  | [] => some (Option.none, [])

/-- The raw named groups of `_iso8601_datetime_re`, as captured strings. -/
structure DTGroups where
  year : List Char
  month : List Char
  day : List Char
  hour : List Char
  minute : List Char
  second : Option (List Char)
  microsecond : Option (List Char)
  tzinfo : Option (List Char)

/-- `_iso8601_datetime_re.match(value)`. -/
def matchDatetime (cs : List Char) : Option DTGroups :=
  (reDigits 4 4 cs).bind fun (ys, cs) =>
  (lit '-' cs).bind fun cs =>
  (reDigits 1 2 cs).bind fun (mos, cs) =>
  (lit '-' cs).bind fun cs =>
  (reDigits 1 2 cs).bind fun (dys, cs) =>
  (litTorSpace cs).bind fun cs =>
  (reDigits 1 2 cs).bind fun (hs, cs) =>
  (lit ':' cs).bind fun cs =>
  (reDigits 1 2 cs).bind fun (mis, cs) =>
  (optSecondsDT cs).bind fun (ss, us, cs) =>
  (optTz cs).bind fun (tzs, cs) =>
  if cs = [] then some ⟨ys, mos, dys, hs, mis, ss, us, tzs⟩ else Option.none

/-- The result of `dt.datetime(...)`: the stored fields, with the timezone
as `none` (naive) or `some offsetSeconds` (`dt.timezone(dt.timedelta(seconds=o))`;
`dt.timezone.utc` is offset 0). -/
structure DT where
  year : Nat
  month : Nat
  day : Nat
  hour : Nat
  minute : Nat
  second : Nat
  microsecond : Nat
  tzOffsetSecs : Option Int
  deriving DecidableEq

def isLeapYear (y : Nat) : Bool :=
  y % 4 = 0 && (y % 100 != 0 || y % 400 = 0)

def daysInMonth (y m : Nat) : Nat :=
  if m = 2 then (if isLeapYear y then 29 else 28)
  else if m = 4 ∨ m = 6 ∨ m = 9 ∨ m = 11 then 30
  else 31

/-- The range checks of the `dt.datetime` constructor. -/
def mkDatetime (y mo d h mi s us : Nat) (tz : Option Int) : Except String DT :=
  if 1 ≤ y ∧ y ≤ 9999 ∧ 1 ≤ mo ∧ mo ≤ 12 ∧ 1 ≤ d ∧ d ≤ daysInMonth y mo ∧
      h ≤ 23 ∧ mi ≤ 59 ∧ s ≤ 59 ∧ us ≤ 999999 then
    .ok ⟨y, mo, d, h, mi, s, us, tz⟩
  else .error "datetime field out of range"

/-- The range check of the `dt.timezone` constructor: the offset must be
strictly between -24 hours and +24 hours. -/
def mkTimezone (offsetSecs : Int) : Except String Int :=
  if -86400 < offsetSecs ∧ offsetSecs < 86400 then .ok offsetSecs
  else .error "offset must be a timedelta strictly between -timedelta(hours=24) and timedelta(hours=24)."

/-- `get_fixed_timezone(offset)` (utils.py lines 103-107) for an integer
count of seconds, as used by `from_iso_datetime` (`offset_mins * 60`). -/
def get_fixed_timezone (offsetSecs : Int) : Except String Int :=
  mkTimezone offsetSecs

/-- Python `s.ljust(6, '0')` for the captured microsecond digits. -/
def ljust6 (ds : List Char) : List Char :=
  ds ++ List.replicate (6 - ds.length) '0'

/-- `hours, minutes = map(int, tzinfo_str[1:].split(':'))` followed by
`offset_mins = hours * 60 + minutes`; a split into any number of parts
other than two is a `ValueError` (unpacking failure). -/
def tzOffsetMinsOfColon (body : List Char) : Except String Int :=
  match splitChar ':' body with
  | [hs, ms] => .ok ((natOfDigits hs : Int) * 60 + (natOfDigits ms : Int))
  | _ => .error "cannot unpack timezone designator"

/-- The timezone computation of `from_iso_datetime` (utils.py lines
129-142) on the raw `tzinfo` capture. -/
def tzOfRaw (raw : List Char) : Except String (Option Int) :=
  if raw = ['Z'] then .ok (some 0)
  else
    match raw with
    | [] => .error "empty timezone designator"
    | sign :: body =>
        let offsetMinsE : Except String Int :=
          if ':' ∈ raw then tzOffsetMinsOfColon body
          else .ok ((natOfDigits body : Int) * 60)
        offsetMinsE.bind fun offsetMins0 =>
          let offsetMins : Int := if sign = '-' then -offsetMins0 else offsetMins0
          (get_fixed_timezone (offsetMins * 60)).map fun o => some o

/-- `from_iso_datetime(value)` (utils.py lines 109-146). -/
def from_iso_datetime (value : String) : Except String DT :=
  match matchDatetime value.toList with
  | Option.none => .error "Not a valid ISO8601-formatted datetime string"
  | some g =>
      let second : Nat := match g.second with
        | Option.none => 0
        | some ss => natOfDigits ss
      let microsecond : Nat := match g.microsecond with
        | Option.none => 0
        | some ds => natOfDigits (ljust6 ds)
      let tzE : Except String (Option Int) := match g.tzinfo with
        | Option.none => .ok Option.none
        | some raw => tzOfRaw raw
      tzE.bind fun tz =>
        mkDatetime (natOfDigits g.year) (natOfDigits g.month) (natOfDigits g.day)
          (natOfDigits g.hour) (natOfDigits g.minute) second microsecond tz

/-! ## ISO8601 time parsing -/

/-- The raw named groups of `_iso8601_time_re`. -/
structure TimeGroups where
  hour : List Char
  minute : List Char
  second : Option (List Char)
  microsecond : Option (List Char)

/-- The optional seconds/fraction group of `_iso8601_time_re`.  Unlike the
datetime regex there is no `$` anchor, so a failure of the inner group just
ends the (prefix) match, and fraction digits beyond the twelfth are ordinary
unmatched trailing input. -/
def optSecondsTime (cs : List Char) : Option (List Char) × Option (List Char) :=
  match cs with
  | ':' :: cs1 =>
      match reDigits 1 2 cs1 with
      | Option.none => (Option.none, Option.none)
      | some (ss, cs2) =>
          match cs2 with
          | '.' :: cs3 =>
              let ds := cs3.takeWhile isDig
              if ds.length = 0 then (some ss, Option.none)
              else (some ss, some (ds.take 6))
          | _ => (some ss, Option.none)
  | _ => (Option.none, Option.none)

/-- `_iso8601_time_re.match(value)`: an unanchored prefix match. -/
def matchTime (cs : List Char) : Option TimeGroups :=
  (reDigits 1 2 cs).bind fun (hs, cs) =>
  (lit ':' cs).bind fun cs =>
  (reDigits 1 2 cs).map fun (mis, cs) =>
    let r := optSecondsTime cs
    ⟨hs, mis, r.1, r.2⟩

/-- The result of `dt.time(...)`. -/
structure TimeVal where
  hour : Nat
  minute : Nat
  second : Nat
  microsecond : Nat
  deriving DecidableEq

/-- The range checks of the `dt.time` constructor. -/
def mkTime (h mi s us : Nat) : Except String TimeVal :=
  if h ≤ 23 ∧ mi ≤ 59 ∧ s ≤ 59 ∧ us ≤ 999999 then .ok ⟨h, mi, s, us⟩
  else .error "time field out of range"

/-- `from_iso_time(value)` (utils.py lines 148-163). -/
def from_iso_time (value : String) : Except String TimeVal :=
  match matchTime value.toList with
  | Option.none => .error "Not a valid ISO8601-formatted time string"
  | some g =>
      let second : Nat := match g.second with
        | Option.none => 0
        | some ss => natOfDigits ss
      let microsecond : Nat := match g.microsecond with
        | Option.none => 0
        | some ds => natOfDigits (ljust6 ds)
      mkTime (natOfDigits g.hour) (natOfDigits g.minute) second microsecond

/-! ## `isoformat`

Embedding of `isoformat(datetime)` (utils.py lines 176-181), which calls
`datetime.isoformat()`: zero-padded fields, the fraction printed as 6
digits exactly when the microsecond field is nonzero, and the UTC offset
as `+HH:MM` (with a `:SS` part only for sub-minute offsets) when aware. -/

def digitChar (n : Nat) : Char := Char.ofNat (48 + n)

/-- `%02d` for `n < 100`. -/
def pad2 (n : Nat) : List Char := [digitChar (n / 10), digitChar (n % 10)]

/-- `%04d` for `n < 10000`. -/
def pad4 (n : Nat) : List Char :=
  [digitChar (n / 1000), digitChar (n / 100 % 10), digitChar (n / 10 % 10),
   digitChar (n % 10)]

/-- `%06d` for `n < 1000000`. -/
def pad6 (n : Nat) : List Char :=
  [digitChar (n / 100000), digitChar (n / 10000 % 10), digitChar (n / 1000 % 10),
   digitChar (n / 100 % 10), digitChar (n / 10 % 10), digitChar (n % 10)]

/-- `datetime._format_offset`: sign, absolute hours and minutes, and a
seconds part only when the offset is not a whole number of minutes. -/
def offsetChars : Option Int → List Char
  | Option.none => []
  | some off =>
      let sign : Char := if off < 0 then '-' else '+'
      let a := off.natAbs
      sign :: (pad2 (a / 3600) ++ ':' :: (pad2 (a % 3600 / 60) ++
        (if a % 60 = 0 then [] else ':' :: pad2 (a % 60))))

def isoformatCore (v : DT) : List Char :=
  pad4 v.year ++ '-' :: (pad2 v.month ++ '-' :: (pad2 v.day ++ 'T' ::
    (pad2 v.hour ++ ':' :: (pad2 v.minute ++ ':' :: (pad2 v.second ++
      ((if v.microsecond = 0 then [] else '.' :: pad6 v.microsecond) ++
        offsetChars v.tzOffsetSecs))))))

def isoformat (v : DT) : String := ⟨isoformatCore v⟩

/-! ## Basic lemmas about digits and padded rendering -/

theorem isDig_digitChar (k : Nat) (h : k < 10) : isDig (digitChar k) = true := by
  interval_cases k <;> decide

theorem digitVal_digitChar (k : Nat) (h : k < 10) : digitVal (digitChar k) = k := by
  interval_cases k <;> decide

theorem digitChar_ne_colon (k : Nat) (h : k < 10) : digitChar k ≠ ':' := by
  interval_cases k <;> decide

theorem pad2_all_digits (n : Nat) (h : n < 100) :
    ∀ c ∈ pad2 n, isDig c = true := by
  intro c hc
  simp only [pad2, List.mem_cons, List.mem_singleton, List.not_mem_nil] at hc
  rcases hc with h1 | h1 | h1
  · exact h1 ▸ isDig_digitChar _ (by omega)
  · exact h1 ▸ isDig_digitChar _ (by omega)
  · exact absurd h1 (by simp)

theorem pad4_all_digits (n : Nat) (h : n < 10000) :
    ∀ c ∈ pad4 n, isDig c = true := by
  intro c hc
  simp only [pad4, List.mem_cons, List.not_mem_nil, or_false] at hc
  rcases hc with h1 | h1 | h1 | h1 <;>
    exact h1 ▸ isDig_digitChar _ (by omega)

theorem pad6_all_digits (n : Nat) (h : n < 1000000) :
    ∀ c ∈ pad6 n, isDig c = true := by
  intro c hc
  simp only [pad6, List.mem_cons, List.not_mem_nil, or_false] at hc
  rcases hc with h1 | h1 | h1 | h1 | h1 | h1 <;>
    exact h1 ▸ isDig_digitChar _ (by omega)

theorem natOfDigits_pad2 (n : Nat) (h : n < 100) : natOfDigits (pad2 n) = n := by
  simp only [natOfDigits, pad2, List.foldl]
  rw [digitVal_digitChar _ (by omega), digitVal_digitChar _ (by omega)]
  omega

theorem natOfDigits_pad4 (n : Nat) (h : n < 10000) : natOfDigits (pad4 n) = n := by
  simp only [natOfDigits, pad4, List.foldl]
  rw [digitVal_digitChar _ (by omega), digitVal_digitChar _ (by omega),
    digitVal_digitChar _ (by omega), digitVal_digitChar _ (by omega)]
  omega

theorem natOfDigits_pad6 (n : Nat) (h : n < 1000000) : natOfDigits (pad6 n) = n := by
  simp only [natOfDigits, pad6, List.foldl]
  rw [digitVal_digitChar _ (by omega), digitVal_digitChar _ (by omega),
    digitVal_digitChar _ (by omega), digitVal_digitChar _ (by omega),
    digitVal_digitChar _ (by omega), digitVal_digitChar _ (by omega)]
  omega

theorem digitVal_le_of_isDig (c : Char) (h : isDig c = true) : digitVal c ≤ 9 := by
  simp only [isDig, Bool.and_eq_true, decide_eq_true_eq] at h
  simp only [digitVal]
  omega

theorem natOfDigits_aux_lt (ds : List Char) :
    ∀ a : Nat, (∀ c ∈ ds, isDig c = true) →
      List.foldl (fun a c => a * 10 + digitVal c) a ds < (a + 1) * 10 ^ ds.length := by
  induction ds with
  | nil => intro a _; simp
  | cons c ds ih =>
      intro a hall
      have hc : digitVal c ≤ 9 :=
        digitVal_le_of_isDig c (hall c (List.mem_cons_self c ds))
      have h1 := ih (a * 10 + digitVal c) (fun x hx => hall x (List.mem_cons_of_mem c hx))
      calc List.foldl (fun a c => a * 10 + digitVal c) (a * 10 + digitVal c) ds
          < (a * 10 + digitVal c + 1) * 10 ^ ds.length := h1
        _ ≤ ((a + 1) * 10) * 10 ^ ds.length := by
            have : a * 10 + digitVal c + 1 ≤ (a + 1) * 10 := by omega
            exact Nat.mul_le_mul_right _ this
        _ = (a + 1) * 10 ^ (c :: ds).length := by
            simp [List.length_cons, pow_succ]; ring

theorem natOfDigits_lt (ds : List Char) (hall : ∀ c ∈ ds, isDig c = true) :
    natOfDigits ds < 10 ^ ds.length := by
  simpa using natOfDigits_aux_lt ds 0 hall

/-! ## Lemmas about the matcher primitives on rendered input -/

theorem takeUpTo_append (ds rest : List Char) (hall : ∀ c ∈ ds, isDig c = true) :
    takeUpTo ds.length (ds ++ rest) = (ds, rest) := by
  induction ds with
  | nil => cases rest <;> rfl
  | cons c ds ih =>
      have hc : isDig c = true := hall c (List.mem_cons_self c ds)
      simp only [List.length_cons, List.cons_append, takeUpTo, hc, if_true,
        List.append_eq]
      rw [ih (fun x hx => hall x (List.mem_cons_of_mem c hx))]

theorem reDigits_append (mn : Nat) (ds rest : List Char)
    (hall : ∀ c ∈ ds, isDig c = true) (hmn : mn ≤ ds.length) :
    reDigits mn ds.length (ds ++ rest) = some (ds, rest) := by
  simp only [reDigits, takeUpTo_append ds rest hall, hmn, if_pos]

theorem reDigits_pad2 (mn n : Nat) (rest : List Char) (h : n < 100) (hmn : mn ≤ 2) :
    reDigits mn 2 (pad2 n ++ rest) = some (pad2 n, rest) := by
  have := reDigits_append mn (pad2 n) rest (pad2_all_digits n h) (by simp [pad2]; omega)
  simpa [pad2] using this

theorem reDigits_pad4 (n : Nat) (rest : List Char) (h : n < 10000) :
    reDigits 4 4 (pad4 n ++ rest) = some (pad4 n, rest) := by
  have := reDigits_append 4 (pad4 n) rest (pad4_all_digits n h) (by simp [pad4])
  simpa [pad4] using this

theorem lit_cons (c : Char) (rest : List Char) : lit c (c :: rest) = some rest := by
  simp [lit]

theorem litTorSpace_T (rest : List Char) : litTorSpace ('T' :: rest) = some rest := by
  simp [litTorSpace]

theorem takeWhile_all_append (ds rest : List Char) (hall : ∀ c ∈ ds, isDig c = true)
    (hrest : ∀ c, rest.head? = some c → isDig c = false) :
    (ds ++ rest).takeWhile isDig = ds := by
  induction ds with
  | nil =>
      cases rest with
      | nil => rfl
      | cons c t =>
          simp only [List.nil_append]
          exact List.takeWhile_cons_of_neg (by simp [hrest c rfl])
  | cons c ds ih =>
      have hc : isDig c = true := hall c (List.mem_cons_self c ds)
      simp only [List.cons_append, List.takeWhile_cons_of_pos hc]
      rw [ih (fun x hx => hall x (List.mem_cons_of_mem c hx))]

theorem drop_length_append (ds rest : List Char) :
    (ds ++ rest).drop ds.length = rest := by
  induction ds with
  | nil => rfl
  | cons c ds ih => simp [ih]

/-! ## Lemmas about the optional regex groups on rendered input -/

theorem optSecondsDT_sec (s : Nat) (hs : s < 100) :
    ∀ rest : List Char, rest.head? ≠ some '.' →
      optSecondsDT (':' :: (pad2 s ++ rest)) = some (some (pad2 s), Option.none, rest) := by
  intro rest hrest
  simp only [optSecondsDT, reDigits_pad2 1 s rest hs (by omega)]
  cases rest with
  | nil => rfl
  | cons c t =>
      have hc : c ≠ '.' := by
        intro e
        exact hrest (by simp [e])
      split
      · rename_i cs3 heq
        injection heq with h1 h2
        exact absurd h1 hc
      · rfl

theorem optSecondsDT_frac (s : Nat) (f rest : List Char) (hs : s < 100)
    (hf : ∀ c ∈ f, isDig c = true) (h1 : 1 ≤ f.length) (h12 : f.length ≤ 12)
    (hrest : ∀ c, rest.head? = some c → isDig c = false) :
    optSecondsDT (':' :: (pad2 s ++ '.' :: (f ++ rest))) =
      some (some (pad2 s), some (f.take 6), rest) := by
  simp only [optSecondsDT, reDigits_pad2 1 s _ hs (by omega)]
  simp only [takeWhile_all_append f rest hf hrest, drop_length_append]
  simp [h1, h12]

theorem optTz_nil : optTz [] = some (Option.none, []) := rfl

theorem optTz_hm (sign : Char) (hh mm : Nat) (rest : List Char)
    (hsign : sign = '+' ∨ sign = '-') (hh2 : hh < 100) (hm2 : mm < 100) :
    optTz (sign :: (pad2 hh ++ ':' :: (pad2 mm ++ rest))) =
      some (some (sign :: (pad2 hh ++ ':' :: pad2 mm)), rest) := by
  rcases hsign with h | h <;> subst h <;>
    simp [optTz, reDigits_pad2 2 hh _ hh2 (by omega),
      reDigits_pad2 2 mm rest hm2 (by omega)]

/-! ## Lemmas about the timezone computation on a rendered designator -/

theorem splitChar_none (sep : Char) (ys : List Char) (h : sep ∉ ys) :
    splitChar sep ys = [ys] := by
  induction ys with
  | nil => rfl
  | cons c t ih =>
      have hc : ¬(c = sep) := by
        intro e
        exact h (by simp [e])
      have ht : sep ∉ t := fun e => h (List.mem_cons_of_mem c e)
      simp only [splitChar, ih ht]
      simp [hc]

theorem splitChar_mid (sep : Char) (xs ys : List Char) (hxs : sep ∉ xs)
    (hys : sep ∉ ys) : splitChar sep (xs ++ sep :: ys) = [xs, ys] := by
  induction xs with
  | nil => simp [splitChar, splitChar_none sep ys hys]
  | cons c t ih =>
      have hc : ¬(c = sep) := by
        intro e
        exact hxs (by simp [e])
      have ht : sep ∉ t := fun e => hxs (List.mem_cons_of_mem c e)
      simp [splitChar, hc, ih ht]

theorem colon_not_mem_of_digits (ds : List Char) (h : ∀ c ∈ ds, isDig c = true) :
    ':' ∉ ds := by
  intro hmem
  have := h ':' hmem
  simp [isDig] at this

theorem get_fixed_timezone_ok (secs : Int) (h1 : -86400 < secs) (h2 : secs < 86400) :
    get_fixed_timezone secs = .ok secs := by
  simp [get_fixed_timezone, mkTimezone, h1, h2]

theorem tzOfRaw_hm (sign : Char) (off : Int)
    (hsign : sign = if off < 0 then '-' else '+')
    (h60 : off % 60 = 0) (habs : off.natAbs < 86400) :
    tzOfRaw (sign :: (pad2 (off.natAbs / 3600) ++ ':' ::
      pad2 (off.natAbs % 3600 / 60))) = .ok (some off) := by
  have hhlt : off.natAbs / 3600 < 100 := by omega
  have hmlt : off.natAbs % 3600 / 60 < 100 := by omega
  have hsplit : splitChar ':' (pad2 (off.natAbs / 3600) ++ ':' ::
      pad2 (off.natAbs % 3600 / 60)) =
      [pad2 (off.natAbs / 3600), pad2 (off.natAbs % 3600 / 60)] :=
    splitChar_mid ':' _ _
      (colon_not_mem_of_digits _ (pad2_all_digits _ hhlt))
      (colon_not_mem_of_digits _ (pad2_all_digits _ hmlt))
  rcases lt_or_le off 0 with hlt | hle
  · have hsign' : sign = '-' := by rw [hsign, if_pos hlt]
    subst hsign'
    have hnotZ : ('-' :: (pad2 (off.natAbs / 3600) ++ ':' ::
        pad2 (off.natAbs % 3600 / 60))) ≠ ['Z'] := by simp [pad2]
    have hmem : ':' ∈ '-' :: (pad2 (off.natAbs / 3600) ++ ':' ::
        pad2 (off.natAbs % 3600 / 60)) := by simp
    simp only [tzOfRaw, if_neg hnotZ, hmem, if_true, tzOffsetMinsOfColon, hsplit,
      natOfDigits_pad2 _ hhlt, natOfDigits_pad2 _ hmlt, Except.bind]
    rw [get_fixed_timezone_ok _ (by omega) (by omega)]
    simp only [Except.map, Except.ok.injEq, Option.some.injEq]
    omega
  · have hsign' : sign = '+' := by rw [hsign, if_neg (not_lt.mpr hle)]
    subst hsign'
    have hnotZ : ('+' :: (pad2 (off.natAbs / 3600) ++ ':' ::
        pad2 (off.natAbs % 3600 / 60))) ≠ ['Z'] := by simp [pad2]
    have hmem : ':' ∈ '+' :: (pad2 (off.natAbs / 3600) ++ ':' ::
        pad2 (off.natAbs % 3600 / 60)) := by simp
    simp only [tzOfRaw, if_neg hnotZ, hmem, if_true, tzOffsetMinsOfColon, hsplit,
      natOfDigits_pad2 _ hhlt, natOfDigits_pad2 _ hmlt, Except.bind,
      if_neg (show ¬('+' = '-') by decide)]
    rw [get_fixed_timezone_ok _ (by omega) (by omega)]
    simp only [Except.map, Except.ok.injEq, Option.some.injEq]
    omega

/-! ## Matching a rendered datetime string -/

theorem matchDatetime_render (y mo d h mi : Nat) (X Y : List Char)
    (ss us tzs : Option (List Char))
    (hy : y < 10000) (hmo : mo < 100) (hd : d < 100) (hh : h < 100) (hmi : mi < 100)
    (hS : optSecondsDT X = some (ss, us, Y)) (hT : optTz Y = some (tzs, [])) :
    matchDatetime (pad4 y ++ '-' :: (pad2 mo ++ '-' :: (pad2 d ++ 'T' ::
      (pad2 h ++ ':' :: (pad2 mi ++ X))))) =
      some ⟨pad4 y, pad2 mo, pad2 d, pad2 h, pad2 mi, ss, us, tzs⟩ := by
  simp only [matchDatetime, reDigits_pad4 y _ hy, Option.some_bind, lit_cons,
    litTorSpace_T, reDigits_pad2 1 mo _ hmo (by omega),
    reDigits_pad2 1 d _ hd (by omega), reDigits_pad2 1 h _ hh (by omega),
    reDigits_pad2 1 mi _ hmi (by omega), hS, hT]
  rfl

theorem toList_mk (cs : List Char) : String.toList ⟨cs⟩ = cs := rfl

theorem take6_pad6 (n : Nat) : (pad6 n).take 6 = pad6 n := rfl

theorem ljust6_pad6 (n : Nat) : ljust6 (pad6 n) = pad6 n := by
  simp [ljust6, pad6]

theorem daysInMonth_le (y m : Nat) : daysInMonth y m ≤ 31 := by
  simp only [daysInMonth]
  split
  · split <;> omega
  · split <;> omega

/-- Parsing the canonical serialization of a valid datetime value recovers
exactly that value.  `tzo` must be a whole number of minutes strictly less
than 24 hours in magnitude (the only offsets `from_iso_datetime` itself can
produce and `dt.timezone` accepts). -/
theorem from_iso_datetime_isoformat (y mo d h mi s us : Nat) (tzo : Option Int)
    (h1 : 1 ≤ y) (h2 : y ≤ 9999) (h3 : 1 ≤ mo) (h4 : mo ≤ 12) (h5 : 1 ≤ d)
    (h6 : d ≤ daysInMonth y mo) (h7 : h ≤ 23) (h8 : mi ≤ 59) (h9 : s ≤ 59)
    (h10 : us ≤ 999999)
    (htz : tzo = Option.none ∨
      ∃ off, tzo = some off ∧ off % 60 = 0 ∧ off.natAbs < 86400) :
    from_iso_datetime (isoformat ⟨y, mo, d, h, mi, s, us, tzo⟩) =
      .ok ⟨y, mo, d, h, mi, s, us, tzo⟩ := by
  have hy : y < 10000 := by omega
  have hmo : mo < 100 := by omega
  have hd : d < 100 := by have := daysInMonth_le y mo; omega
  have hh : h < 100 := by omega
  have hmi : mi < 100 := by omega
  have hs : s < 100 := by omega
  have hus6 : us < 1000000 := by omega
  rcases htz with htz | ⟨off, htz, h60, habs⟩
  · subst htz
    by_cases hus : us = 0
    · subst hus
      have hS : optSecondsDT (':' :: pad2 s) =
          some (some (pad2 s), Option.none, []) := by
        simpa using optSecondsDT_sec s hs [] (by simp)
      have hmatch := matchDatetime_render y mo d h mi (':' :: pad2 s) []
        (some (pad2 s)) Option.none Option.none hy hmo hd hh hmi hS optTz_nil
      simp [isoformat, isoformatCore, offsetChars, from_iso_datetime, toList_mk,
        hmatch, natOfDigits_pad4 y hy, natOfDigits_pad2 mo hmo,
        natOfDigits_pad2 d hd, natOfDigits_pad2 h hh, natOfDigits_pad2 mi hmi,
        natOfDigits_pad2 s hs, Except.bind, mkDatetime,
        h1, h2, h3, h4, h5, h6, h7, h8, h9]
    · have hS : optSecondsDT (':' :: (pad2 s ++ '.' :: pad6 us)) =
          some (some (pad2 s), some ((pad6 us).take 6), []) := by
        simpa using optSecondsDT_frac s (pad6 us) [] hs
          (pad6_all_digits us hus6) (by simp [pad6]) (by simp [pad6])
          (by intro c hc; simp at hc)
      have hmatch := matchDatetime_render y mo d h mi
        (':' :: (pad2 s ++ '.' :: pad6 us)) []
        (some (pad2 s)) (some ((pad6 us).take 6)) Option.none hy hmo hd hh hmi
        hS optTz_nil
      simp [isoformat, isoformatCore, offsetChars, hus, from_iso_datetime,
        toList_mk, hmatch, natOfDigits_pad4 y hy, natOfDigits_pad2 mo hmo,
        natOfDigits_pad2 d hd, natOfDigits_pad2 h hh, natOfDigits_pad2 mi hmi,
        natOfDigits_pad2 s hs, take6_pad6, ljust6_pad6,
        natOfDigits_pad6 us hus6, Except.bind, mkDatetime,
        h1, h2, h3, h4, h5, h6, h7, h8, h9, h10]
  · subst htz
    have hmod : off.natAbs % 60 = 0 := by omega
    have hsd : (if off < 0 then '-' else '+') ≠ '.' := by split <;> decide
    have hsdig : isDig (if off < 0 then '-' else '+') = false := by
      split <;> decide
    have hT : optTz ((if off < 0 then '-' else '+') ::
        (pad2 (off.natAbs / 3600) ++ ':' :: pad2 (off.natAbs % 3600 / 60))) =
        some (some ((if off < 0 then '-' else '+') ::
          (pad2 (off.natAbs / 3600) ++ ':' :: pad2 (off.natAbs % 3600 / 60))), []) := by
      simpa using optTz_hm _ (off.natAbs / 3600) (off.natAbs % 3600 / 60) []
        (by split <;> simp) (by omega) (by omega)
    have htzraw := tzOfRaw_hm _ off rfl h60 habs
    by_cases hus : us = 0
    · subst hus
      have hS : optSecondsDT (':' :: (pad2 s ++ (if off < 0 then '-' else '+') ::
          (pad2 (off.natAbs / 3600) ++ ':' :: pad2 (off.natAbs % 3600 / 60)))) =
          some (some (pad2 s), Option.none, (if off < 0 then '-' else '+') ::
            (pad2 (off.natAbs / 3600) ++ ':' :: pad2 (off.natAbs % 3600 / 60))) :=
        optSecondsDT_sec s hs _ (by simpa using hsd)
      have hmatch := matchDatetime_render y mo d h mi
        (':' :: (pad2 s ++ (if off < 0 then '-' else '+') ::
          (pad2 (off.natAbs / 3600) ++ ':' :: pad2 (off.natAbs % 3600 / 60))))
        ((if off < 0 then '-' else '+') ::
          (pad2 (off.natAbs / 3600) ++ ':' :: pad2 (off.natAbs % 3600 / 60)))
        (some (pad2 s)) Option.none
        (some ((if off < 0 then '-' else '+') ::
          (pad2 (off.natAbs / 3600) ++ ':' :: pad2 (off.natAbs % 3600 / 60))))
        hy hmo hd hh hmi hS hT
      simp [isoformat, isoformatCore, offsetChars, hmod, from_iso_datetime,
        toList_mk, hmatch, natOfDigits_pad4 y hy, natOfDigits_pad2 mo hmo,
        natOfDigits_pad2 d hd, natOfDigits_pad2 h hh, natOfDigits_pad2 mi hmi,
        natOfDigits_pad2 s hs, htzraw, Except.bind, mkDatetime,
        h1, h2, h3, h4, h5, h6, h7, h8, h9]
    · have hS : optSecondsDT (':' :: (pad2 s ++ '.' :: (pad6 us ++
          (if off < 0 then '-' else '+') ::
          (pad2 (off.natAbs / 3600) ++ ':' :: pad2 (off.natAbs % 3600 / 60))))) =
          some (some (pad2 s), some ((pad6 us).take 6),
            (if off < 0 then '-' else '+') ::
            (pad2 (off.natAbs / 3600) ++ ':' :: pad2 (off.natAbs % 3600 / 60))) :=
        optSecondsDT_frac s (pad6 us) _ hs (pad6_all_digits us hus6)
          (by simp [pad6]) (by simp [pad6])
          (by intro c hc; simp at hc; exact hc ▸ hsdig)
      have hmatch := matchDatetime_render y mo d h mi
        (':' :: (pad2 s ++ '.' :: (pad6 us ++ (if off < 0 then '-' else '+') ::
          (pad2 (off.natAbs / 3600) ++ ':' :: pad2 (off.natAbs % 3600 / 60)))))
        ((if off < 0 then '-' else '+') ::
          (pad2 (off.natAbs / 3600) ++ ':' :: pad2 (off.natAbs % 3600 / 60)))
        (some (pad2 s)) (some ((pad6 us).take 6))
        (some ((if off < 0 then '-' else '+') ::
          (pad2 (off.natAbs / 3600) ++ ':' :: pad2 (off.natAbs % 3600 / 60))))
        hy hmo hd hh hmi hS hT
      simp [isoformat, isoformatCore, offsetChars, hus, hmod, from_iso_datetime,
        toList_mk, hmatch, natOfDigits_pad4 y hy, natOfDigits_pad2 mo hmo,
        natOfDigits_pad2 d hd, natOfDigits_pad2 h hh, natOfDigits_pad2 mi hmi,
        natOfDigits_pad2 s hs, take6_pad6, ljust6_pad6,
        natOfDigits_pad6 us hus6, htzraw, Except.bind, mkDatetime,
        h1, h2, h3, h4, h5, h6, h7, h8, h9, h10]

/-! ## Parsing a rendered datetime with an arbitrary fraction -/

theorem ljust6_all_digits (ds : List Char) (h : ∀ c ∈ ds, isDig c = true) :
    ∀ c ∈ ljust6 ds, isDig c = true := by
  intro c hc
  simp only [ljust6, List.mem_append] at hc
  rcases hc with hc | hc
  · exact h c hc
  · have := List.eq_of_mem_replicate hc
    subst this
    decide

theorem length_ljust6 (ds : List Char) (h : ds.length ≤ 6) :
    (ljust6 ds).length = 6 := by
  simp only [ljust6, List.length_append, List.length_replicate]
  omega

theorem micro_of_frac_lt (f : List Char) (hf : ∀ c ∈ f, isDig c = true) :
    natOfDigits (ljust6 (f.take 6)) < 1000000 := by
  have hall : ∀ c ∈ f.take 6, isDig c = true :=
    fun c hc => hf c (List.take_subset 6 f hc)
  have h6 : (f.take 6).length ≤ 6 := by
    simp [List.length_take]
  have hlt := natOfDigits_lt (ljust6 (f.take 6)) (ljust6_all_digits _ hall)
  rw [length_ljust6 _ h6] at hlt
  simpa using hlt

/-- Parsing a rendered datetime whose fractional part is an arbitrary block
of 1 to 12 digits: the microsecond field of the result is the first 6
fraction digits right-padded with zeros to 6 digits. -/
theorem from_iso_datetime_frac_render (y mo d h mi s : Nat) (f : List Char)
    (tzo : Option Int)
    (h1 : 1 ≤ y) (h2 : y ≤ 9999) (h3 : 1 ≤ mo) (h4 : mo ≤ 12) (h5 : 1 ≤ d)
    (h6 : d ≤ daysInMonth y mo) (h7 : h ≤ 23) (h8 : mi ≤ 59) (h9 : s ≤ 59)
    (hf : ∀ c ∈ f, isDig c = true) (hf1 : 1 ≤ f.length) (hf12 : f.length ≤ 12)
    (htz : tzo = Option.none ∨
      ∃ off, tzo = some off ∧ off % 60 = 0 ∧ off.natAbs < 86400) :
    from_iso_datetime ⟨pad4 y ++ '-' :: (pad2 mo ++ '-' :: (pad2 d ++ 'T' ::
      (pad2 h ++ ':' :: (pad2 mi ++ ':' :: (pad2 s ++ '.' ::
        (f ++ offsetChars tzo))))))⟩ =
      .ok ⟨y, mo, d, h, mi, s, natOfDigits (ljust6 (f.take 6)), tzo⟩ := by
  have hy : y < 10000 := by omega
  have hmo : mo < 100 := by omega
  have hd : d < 100 := by have := daysInMonth_le y mo; omega
  have hh : h < 100 := by omega
  have hmi : mi < 100 := by omega
  have hs : s < 100 := by omega
  have h10 : natOfDigits (ljust6 (f.take 6)) ≤ 999999 := by
    have := micro_of_frac_lt f hf
    omega
  rcases htz with htz | ⟨off, htz, h60, habs⟩
  · subst htz
    have hS : optSecondsDT (':' :: (pad2 s ++ '.' :: f)) =
        some (some (pad2 s), some (f.take 6), []) := by
      simpa using optSecondsDT_frac s f [] hs hf hf1 hf12
        (by intro c hc; simp at hc)
    have hmatch := matchDatetime_render y mo d h mi
      (':' :: (pad2 s ++ '.' :: f)) []
      (some (pad2 s)) (some (f.take 6)) Option.none hy hmo hd hh hmi
      hS optTz_nil
    simp [offsetChars, from_iso_datetime, toList_mk, hmatch,
      natOfDigits_pad4 y hy, natOfDigits_pad2 mo hmo, natOfDigits_pad2 d hd,
      natOfDigits_pad2 h hh, natOfDigits_pad2 mi hmi, natOfDigits_pad2 s hs,
      Except.bind, mkDatetime, h1, h2, h3, h4, h5, h6, h7, h8, h9, h10]
  · subst htz
    have hmod : off.natAbs % 60 = 0 := by omega
    have hsdig : isDig (if off < 0 then '-' else '+') = false := by
      split <;> decide
    have hT : optTz ((if off < 0 then '-' else '+') ::
        (pad2 (off.natAbs / 3600) ++ ':' :: pad2 (off.natAbs % 3600 / 60))) =
        some (some ((if off < 0 then '-' else '+') ::
          (pad2 (off.natAbs / 3600) ++ ':' :: pad2 (off.natAbs % 3600 / 60))), []) := by
      simpa using optTz_hm _ (off.natAbs / 3600) (off.natAbs % 3600 / 60) []
        (by split <;> simp) (by omega) (by omega)
    have htzraw := tzOfRaw_hm _ off rfl h60 habs
    have hS : optSecondsDT (':' :: (pad2 s ++ '.' :: (f ++
        (if off < 0 then '-' else '+') ::
        (pad2 (off.natAbs / 3600) ++ ':' :: pad2 (off.natAbs % 3600 / 60))))) =
        some (some (pad2 s), some (f.take 6),
          (if off < 0 then '-' else '+') ::
          (pad2 (off.natAbs / 3600) ++ ':' :: pad2 (off.natAbs % 3600 / 60))) :=
      optSecondsDT_frac s f _ hs hf hf1 hf12
        (by intro c hc; simp at hc; exact hc ▸ hsdig)
    have hmatch := matchDatetime_render y mo d h mi
      (':' :: (pad2 s ++ '.' :: (f ++ (if off < 0 then '-' else '+') ::
        (pad2 (off.natAbs / 3600) ++ ':' :: pad2 (off.natAbs % 3600 / 60)))))
      ((if off < 0 then '-' else '+') ::
        (pad2 (off.natAbs / 3600) ++ ':' :: pad2 (off.natAbs % 3600 / 60)))
      (some (pad2 s)) (some (f.take 6))
      (some ((if off < 0 then '-' else '+') ::
        (pad2 (off.natAbs / 3600) ++ ':' :: pad2 (off.natAbs % 3600 / 60))))
      hy hmo hd hh hmi hS hT
    simp [offsetChars, hmod, from_iso_datetime, toList_mk, hmatch,
      natOfDigits_pad4 y hy, natOfDigits_pad2 mo hmo, natOfDigits_pad2 d hd,
      natOfDigits_pad2 h hh, natOfDigits_pad2 mi hmi, natOfDigits_pad2 s hs,
      htzraw, Except.bind, mkDatetime, h1, h2, h3, h4, h5, h6, h7, h8, h9, h10]

/-! ## Parsing a rendered time with trailing characters -/

theorem optSecondsTime_sec (s : Nat) (hs : s < 100) :
    ∀ t : List Char, t.head? ≠ some '.' →
      optSecondsTime (':' :: (pad2 s ++ t)) = (some (pad2 s), Option.none) := by
  intro t ht
  simp only [optSecondsTime, reDigits_pad2 1 s t hs (by omega)]
  cases t with
  | nil => rfl
  | cons c t2 =>
      have hc : c ≠ '.' := by
        intro e
        exact ht (by simp [e])
      split
      · rename_i cs3 heq
        injection heq with e1 e2
        exact absurd e1 hc
      · rfl

theorem matchTime_render (h mi s : Nat) (t : List Char)
    (hh : h < 100) (hmi : mi < 100) (hs : s < 100) (ht : t.head? ≠ some '.') :
    matchTime (pad2 h ++ ':' :: (pad2 mi ++ ':' :: (pad2 s ++ t))) =
      some ⟨pad2 h, pad2 mi, some (pad2 s), Option.none⟩ := by
  simp only [matchTime, reDigits_pad2 1 h _ hh (by omega), Option.some_bind,
    lit_cons, reDigits_pad2 1 mi _ hmi (by omega)]
  simp [optSecondsTime_sec s hs t ht]

/-- `from_iso_time` on a valid zero-padded `HH:MM:SS` prefix followed by
arbitrary trailing characters (as long as they do not extend the fraction,
i.e. do not start with a dot) succeeds and ignores the trailing characters. -/
theorem from_iso_time_render (h mi s : Nat) (t : List Char)
    (h7 : h ≤ 23) (h8 : mi ≤ 59) (h9 : s ≤ 59) (ht : t.head? ≠ some '.') :
    from_iso_time ⟨pad2 h ++ ':' :: (pad2 mi ++ ':' :: (pad2 s ++ t))⟩ =
      .ok ⟨h, mi, s, 0⟩ := by
  have hh : h < 100 := by omega
  have hmi' : mi < 100 := by omega
  have hs : s < 100 := by omega
  have hmatch := matchTime_render h mi s t hh hmi' hs ht
  simp [from_iso_time, toList_mk, hmatch, natOfDigits_pad2 h hh,
    natOfDigits_pad2 mi hmi', natOfDigits_pad2 s hs, mkTime, h7, h8, h9]

/-! ## Lemmas about `set_value` -/

/-- The walk on a fresh (empty) dict just builds the nested chain and can
never fail: every segment is missing, so `dct[part] = {}` runs each time. -/
theorem setValueAux_nil (parts : List String) : ∀ pre v,
    setValueAux [] parts pre v = (nestVal parts v, Option.none) := by
  induction parts with
  | nil => intro pre v; rfl
  | cons p rest ih =>
      intro pre v
      cases rest with
      | nil => rfl
      | cons q rest2 => simp only [setValueAux, alookup, ih, nestVal, ainsert]

/-- When the first segment is absent, the walk builds the whole nested chain
below it and succeeds. -/
theorem setValueAux_fresh (d : Dct) (p : String) (rest : List String) (v : PyVal)
    (hrest : rest ≠ []) (habs : alookup d p = Option.none) (pre : List String) :
    setValueAux d (p :: rest) pre v =
      (ainsert d p (.dict (nestVal rest v)), Option.none) := by
  cases rest with
  | nil => exact absurd rfl hrest
  | cons q rest2 => simp only [setValueAux, habs, setValueAux_nil]

/-- Re-inserting the value a key already has leaves the dict unchanged. -/
theorem ainsert_self (d : Dct) (k : String) (w : PyVal)
    (h : alookup d k = some w) : ainsert d k w = d := by
  induction d with
  | nil => simp [alookup] at h
  | cons kv rest ih =>
      obtain ⟨k0, v0⟩ := kv
      by_cases he : k0 = k
      · subst he
        have h2 : v0 = w := by simpa [alookup] using h
        subst h2
        simp [ainsert]
      · simp only [alookup, if_neg he] at h
        simp [ainsert, he, ih h]

/-- If the walk of `setValueAux` fails, the dict state it returns is exactly
the input dict: a conflict is only ever detected before any mutation. -/
theorem setValueAux_error_preserves (parts : List String) : ∀ d pre v e,
    (setValueAux d parts pre v).2 = some e → (setValueAux d parts pre v).1 = d := by
  induction parts with
  | nil => intro d pre v e h; simp [setValueAux] at h
  | cons p rest ih =>
      intro d pre v e h
      cases rest with
      | nil => simp [setValueAux] at h
      | cons q rest2 =>
          cases hl : alookup d p with
          | none =>
              rw [setValueAux] at h
              simp only [hl, setValueAux_nil] at h
              exact Option.noConfusion h
          | some w =>
              cases w with
              | dict sub =>
                  rw [setValueAux] at h ⊢
                  simp only [hl] at h ⊢
                  have h1 := ih sub (pre ++ [p]) v e h
                  rw [h1]
                  exact ainsert_self d p (.dict sub) hl
              | none => rw [setValueAux]; simp only [hl]
              | missingV => rw [setValueAux]; simp only [hl]
              | int n => rw [setValueAux]; simp only [hl]
              | str t => rw [setValueAux]; simp only [hl]

/-- When the walk hits a conflict, the error message names the conflicting
path (`parts[:i+1]`, joined with dots, appended to the already-walked
path segments `pre`). -/
theorem setValueAux_conflict (parts : List String) : ∀ d pre v path,
    walkConflict d parts = some path →
      (setValueAux d parts pre v).2 = some (conflictMsg (pre ++ path)) := by
  induction parts with
  | nil => intro d pre v path h; simp [walkConflict] at h
  | cons p rest ih =>
      intro d pre v path h
      cases rest with
      | nil => simp [walkConflict] at h
      | cons q rest2 =>
          cases hl : alookup d p with
          | none =>
              rw [walkConflict] at h
              simp only [hl] at h
              exact Option.noConfusion h
          | some w =>
              cases w with
              | dict sub =>
                  rw [walkConflict] at h
                  simp only [hl] at h
                  cases hw : walkConflict sub (q :: rest2) with
                  | none =>
                      rw [hw] at h
                      exact Option.noConfusion h
                  | some t =>
                      rw [hw] at h
                      simp at h
                      subst h
                      rw [setValueAux]
                      simp only [hl, ih sub (pre ++ [p]) v t hw]
                      simp
              | none =>
                  rw [walkConflict] at h
                  simp only [hl, Option.some.injEq] at h
                  subst h
                  rw [setValueAux]
                  simp only [hl]
              | missingV =>
                  rw [walkConflict] at h
                  simp only [hl, Option.some.injEq] at h
                  subst h
                  rw [setValueAux]
                  simp only [hl]
              | int n =>
                  rw [walkConflict] at h
                  simp only [hl, Option.some.injEq] at h
                  subst h
                  rw [setValueAux]
                  simp only [hl]
              | str t =>
                  rw [walkConflict] at h
                  simp only [hl, Option.some.injEq] at h
                  subst h
                  rw [setValueAux]
                  simp only [hl]

/-! ## Claims -/

/-- Claim C1: the spec says a `+HHMM` designator yields a fixed offset of
`sign × (HH×60+MM)` minutes.  The code instead computes
`int(tzinfo_str[1:]) * 60` minutes when the designator has no colon, so
`+0023` is read as 23 hours (82800 s) rather than 23 minutes (1380 s), and
`+0530` raises because 530 hours exceeds the `dt.timezone` range.  The `Z`,
`+HH:MM`, `+HH` and absent-designator behaviors do agree with the claim.
This theorem evaluates `from_iso_datetime` at the failing and agreeing
inputs. -/
theorem claim_C1_tz_designator :
    from_iso_datetime "2024-01-15T10:30:00+0023" =
      .ok ⟨2024, 1, 15, 10, 30, 0, 0, some 82800⟩ ∧
    (82800 : Int) ≠ (0 * 60 + 23) * 60 ∧
    from_iso_datetime "2024-01-15T10:30:00+0530" =
      .error "offset must be a timedelta strictly between -timedelta(hours=24) and timedelta(hours=24)." ∧
    from_iso_datetime "2024-01-15T10:30:00Z" =
      .ok ⟨2024, 1, 15, 10, 30, 0, 0, some 0⟩ ∧
    from_iso_datetime "2024-01-15T10:30:00+05:30" =
      .ok ⟨2024, 1, 15, 10, 30, 0, 0, some 19800⟩ ∧
    from_iso_datetime "2024-01-15T10:30:00-05:00" =
      .ok ⟨2024, 1, 15, 10, 30, 0, 0, some (-18000)⟩ ∧
    from_iso_datetime "2024-01-15T10:30:00+05" =
      .ok ⟨2024, 1, 15, 10, 30, 0, 0, some 18000⟩ ∧
    from_iso_datetime "2024-01-15T10:30:00" =
      .ok ⟨2024, 1, 15, 10, 30, 0, 0, Option.none⟩ :=
  ⟨rfl, by decide, rfl, rfl, rfl, rfl, rfl, rfl⟩

/-- Claim C2 counterexample: the claim says `from_iso_time` rejects a valid
time prefix followed by trailing characters with a `ValueError`; in fact the
time regex has no end anchor, so the trailing timezone designator is
silently ignored and parsing succeeds. -/
theorem claim_C2_counterexample :
    from_iso_time "10:30:00+01:00" = .ok ⟨10, 30, 0, 0⟩ := rfl

/-- Claim C2 (amended): `from_iso_time` matches only a prefix of its input:
a valid zero-padded `HH:MM:SS` prefix followed by any trailing characters
that cannot extend the match (any suffix not starting with `.`, e.g. a
timezone designator) parses successfully, silently ignoring the trailing
characters. -/
theorem claim_C2_trailing_ignored (h mi s : Nat) (t : List Char)
    (h7 : h ≤ 23) (h8 : mi ≤ 59) (h9 : s ≤ 59) (ht : t.head? ≠ some '.') :
    from_iso_time ⟨pad2 h ++ ':' :: (pad2 mi ++ ':' :: (pad2 s ++ t))⟩ =
      .ok ⟨h, mi, s, 0⟩ :=
  from_iso_time_render h mi s t h7 h8 h9 ht

/-- Witness for C2 (amended) at `"10:30:00" ++ "+01:00"`. -/
theorem claim_C2_trailing_ignored_witness :
    from_iso_time ⟨pad2 10 ++ ':' :: (pad2 30 ++ ':' :: (pad2 0 ++ "+01:00".toList))⟩ =
      .ok ⟨10, 30, 0, 0⟩ :=
  claim_C2_trailing_ignored 10 30 0 "+01:00".toList
    (by decide) (by decide) (by decide) (by decide)

/-- The embedding of the Python list `[1, 2, 3]` as seen by `get_value`:
subscriptable, integer indices 0..2 defined, every other index raising
`IndexError`, string subscripts raising `TypeError`, and no (relevant)
attributes. -/
def listObj : PyObj where
  hasGetitem := true
  getitem
    | .inl 0 => .ok (.int 1)
    | .inl 1 => .ok (.int 2)
    | .inl 2 => .ok (.int 3)
    | .inl _ => .error .indexError
    | .inr _ => .error .typeError
  getattrOpt := fun _ => Option.none

/-- Claim C3 counterexample: the claim says `get_value` never raises for a
missing key over integer or string keys.  But for the list `[1, 2, 3]` and
the out-of-range integer key 10, the subscript raises `IndexError`, the
fallback `getattr([1,2,3], 10, default)` then raises `TypeError` (attribute
names must be strings) outside the `try` block, and that `TypeError`
propagates out of `get_value` instead of the default being returned. -/
theorem claim_C3_counterexample :
    get_value listObj (.inl 10) (PyVal.int 7) = .error .typeError ∧
    get_value listObj (.inl 10) (PyVal.int 7) ≠ .ok (PyVal.int 7) :=
  ⟨rfl, fun h => Except.noConfusion h⟩

/-- Claim C3 (amended): for every STRING key, `get_value` never raises when
the key/attribute is missing: with no `__getitem__` it goes straight to
attribute access with the default; if subscripting raises one of the four
caught exception kinds it falls back to attribute access; and if the
attribute is also missing the caller-supplied default (or the `missing`
sentinel, the declared default) is returned.  For an INTEGER key that
reaches the attribute-access fallback — no `__getitem__`, or a caught
subscript failure — `getattr` raises an uncaught `TypeError`, because
attribute names must be strings and both `getattr` calls sit outside the
`try`. -/
theorem claim_C3_get_value_string_keys (obj : PyObj) (key : String)
    (default : PyVal) (e : PyExc) (hsub : obj.getitem (.inr key) = .error e)
    (hc : caughtByGetValue e = true) :
    get_value obj (.inr key) default = .ok ((obj.getattrOpt key).getD default) ∧
    (obj.getattrOpt key = Option.none →
      get_value obj (.inr key) default = .ok default) ∧
    (obj.getattrOpt key = Option.none →
      get_value obj (.inr key) .missingV = .ok .missingV) ∧
    (∀ (o : PyObj) (k : String) (dflt : PyVal), o.hasGetitem = false →
      get_value o (.inr k) dflt = .ok ((o.getattrOpt k).getD dflt)) ∧
    (∀ (o : PyObj) (i : Int) (dflt : PyVal), o.hasGetitem = false →
      get_value o (.inl i) dflt = .error .typeError) ∧
    (∀ (o : PyObj) (i : Int) (dflt : PyVal) (e2 : PyExc),
      o.getitem (.inl i) = .error e2 → caughtByGetValue e2 = true →
      o.hasGetitem = true → get_value o (.inl i) dflt = .error .typeError) := by
  have main : ∀ dflt : PyVal,
      get_value obj (.inr key) dflt = .ok ((obj.getattrOpt key).getD dflt) := by
    intro dflt
    by_cases hg : obj.hasGetitem = false
    · simp [get_value, hg, getattrDefault]
    · simp [get_value, hg, hsub, hc, getattrDefault]
  refine ⟨main default, ?_, ?_, ?_, ?_, ?_⟩
  · intro hn
    rw [main default]
    simp [hn]
  · intro hn
    rw [main .missingV]
    simp [hn]
  · intro o k dflt hg
    simp [get_value, hg, getattrDefault]
  · intro o i dflt hg
    simp [get_value, hg, getattrDefault]
  · intro o i dflt e2 hsub2 hc2 hg
    simp [get_value, hg, hsub2, hc2, getattrDefault]

def witnessObj : PyObj :=
  ⟨true, fun _ => .error .keyError, fun _ => Option.none⟩

/-- Witness for C3 (amended): a subscriptable object whose lookup raises
`KeyError` and which has no attributes returns the caller-supplied default
for a string key. -/
theorem claim_C3_get_value_string_keys_witness :
    get_value witnessObj (.inr "age") (PyVal.int 7) = .ok (PyVal.int 7) :=
  (claim_C3_get_value_string_keys witnessObj "age" (PyVal.int 7)
    .keyError rfl rfl).1

/-- Claim C4: for a datetime string with fractional digits, the microsecond
field is the first (at most) 6 fraction digits right-padded with zeros to 6
digits — truncation, not rounding; seconds and microseconds default to 0
when omitted.  The general statement covers a rendered datetime with any
block of 1 to 12 fraction digits; the concrete instances check the spec
example (9 digits truncated to 123456) and the omitted-seconds default. -/
theorem claim_C4_fraction (y mo d h mi s : Nat) (f : List Char)
    (tzo : Option Int)
    (h1 : 1 ≤ y) (h2 : y ≤ 9999) (h3 : 1 ≤ mo) (h4 : mo ≤ 12) (h5 : 1 ≤ d)
    (h6 : d ≤ daysInMonth y mo) (h7 : h ≤ 23) (h8 : mi ≤ 59) (h9 : s ≤ 59)
    (hf : ∀ c ∈ f, isDig c = true) (hf1 : 1 ≤ f.length) (hf12 : f.length ≤ 12)
    (htz : tzo = Option.none ∨
      ∃ off, tzo = some off ∧ off % 60 = 0 ∧ off.natAbs < 86400) :
    from_iso_datetime ⟨pad4 y ++ '-' :: (pad2 mo ++ '-' :: (pad2 d ++ 'T' ::
      (pad2 h ++ ':' :: (pad2 mi ++ ':' :: (pad2 s ++ '.' ::
        (f ++ offsetChars tzo))))))⟩ =
      .ok ⟨y, mo, d, h, mi, s, natOfDigits (ljust6 (f.take 6)), tzo⟩ ∧
    from_iso_datetime "2024-01-15T10:30:00.123456789" =
      .ok ⟨2024, 1, 15, 10, 30, 0, 123456, Option.none⟩ ∧
    from_iso_datetime "2024-01-15T10:30" =
      .ok ⟨2024, 1, 15, 10, 30, 0, 0, Option.none⟩ :=
  ⟨from_iso_datetime_frac_render y mo d h mi s f tzo
    h1 h2 h3 h4 h5 h6 h7 h8 h9 hf hf1 hf12 htz, rfl, rfl⟩

/-- Witness for C4 with the 9-digit fraction `123456789`. -/
theorem claim_C4_fraction_witness :
    from_iso_datetime ⟨pad4 2024 ++ '-' :: (pad2 1 ++ '-' :: (pad2 15 ++ 'T' ::
      (pad2 10 ++ ':' :: (pad2 30 ++ ':' :: (pad2 0 ++ '.' ::
        ("123456789".toList ++ offsetChars Option.none))))))⟩ =
      .ok ⟨2024, 1, 15, 10, 30, 0, 123456, Option.none⟩ :=
  (claim_C4_fraction 2024 1 15 10 30 0 "123456789".toList Option.none
    (by decide) (by decide) (by decide) (by decide) (by decide) (by decide)
    (by decide) (by decide) (by decide) (by decide) (by decide) (by decide)
    (Or.inl rfl)).1

/-- Claim C5: on a dotted key whose first segment is absent (in particular
when all segments are absent), `set_value` creates the nested chain of
mappings and succeeds; `set_value({}, "a.b.c", 1)` produces the nested
dict of the spec; a key without `.` is set directly. -/
theorem claim_C5_set_value_nested (d : Dct) (key : String) (v : PyVal)
    (p : String) (rest : List String)
    (hdot : '.' ∈ key.toList) (hparts : splitDot key = p :: rest)
    (hrest : rest ≠ []) (habs : alookup d p = Option.none) :
    set_value d key v = (ainsert d p (.dict (nestVal rest v)), Option.none) ∧
    set_value [] "a.b.c" (.int 1) =
      ([("a", .dict [("b", .dict [("c", .int 1)])])], Option.none) ∧
    ∀ (d2 : Dct) (k2 : String) (v2 : PyVal), '.' ∉ k2.toList →
      set_value d2 k2 v2 = (ainsert d2 k2 v2, Option.none) := by
  refine ⟨?_, rfl, ?_⟩
  · rw [set_value, if_pos hdot, hparts]
    exact setValueAux_fresh d p rest v hrest habs []
  · intro d2 k2 v2 hnd
    rw [set_value, if_neg hnd]

/-- Witness for C5 at `set_value({"x": 5}, "a.b", 2)`. -/
theorem claim_C5_set_value_nested_witness :
    set_value [("x", PyVal.int 5)] "a.b" (PyVal.int 2) =
      ([("x", PyVal.int 5), ("a", PyVal.dict [("b", PyVal.int 2)])], Option.none) :=
  (claim_C5_set_value_nested [("x", PyVal.int 5)] "a.b" (PyVal.int 2) "a" ["b"]
    (by decide) rfl (by decide) rfl).1

/-- Claim C6: when the walk of a dotted key meets an existing non-mapping
value at a non-final segment, `set_value` fails with a `ValueError` whose
message names the exact conflicting path (the dot-joined walked segments);
in particular `set_value({"a": 1}, "a.b", 2)` fails naming `a`. -/
theorem claim_C6_set_value_conflict (d : Dct) (key : String) (v : PyVal)
    (path : List String) (hdot : '.' ∈ key.toList)
    (hconf : walkConflict d (splitDot key) = some path) :
    (set_value d key v).2 = some (conflictMsg path) ∧
    set_value [("a", PyVal.int 1)] "a.b" (PyVal.int 2) =
      ([("a", PyVal.int 1)],
        some "String path conflicts with current dictionary structure at a") := by
  refine ⟨?_, rfl⟩
  rw [set_value, if_pos hdot]
  have := setValueAux_conflict (splitDot key) d [] v path hconf
  simpa using this

/-- Witness for C6 at `set_value({"a": 1}, "a.b", 3)`. -/
theorem claim_C6_set_value_conflict_witness :
    (set_value [("a", PyVal.int 1)] "a.b" (PyVal.int 3)).2 =
      some "String path conflicts with current dictionary structure at a" :=
  (claim_C6_set_value_conflict [("a", PyVal.int 1)] "a.b" (PyVal.int 3) ["a"]
    (by decide) rfl).1

/-- Claim C7 counterexample: the claim as stated includes strings with a
written-out zero fraction `.000000` among the canonical forms, but
`isoformat` omits the fraction when the microsecond is 0, so such a string
does not round-trip. -/
theorem claim_C7_counterexample :
    from_iso_datetime "2024-01-15T10:30:00.000000+05:00" =
      .ok ⟨2024, 1, 15, 10, 30, 0, 0, some 18000⟩ ∧
    isoformat ⟨2024, 1, 15, 10, 30, 0, 0, some 18000⟩ =
      "2024-01-15T10:30:00+05:00" ∧
    ("2024-01-15T10:30:00+05:00" : String) ≠
      "2024-01-15T10:30:00.000000+05:00" :=
  ⟨rfl, rfl, by decide⟩

/-- Claim C7 (amended): a valid ISO8601 datetime string in canonical form —
the canonical serialization of its value: zero-padded fields, fixed offset
written `+HH:MM`, 6-digit microseconds present exactly when the fraction is
nonzero — round-trips through `from_iso_datetime` and `isoformat`. -/
theorem claim_C7_roundtrip (str : String) (v : DT)
    (h1 : 1 ≤ v.year) (h2 : v.year ≤ 9999) (h3 : 1 ≤ v.month) (h4 : v.month ≤ 12)
    (h5 : 1 ≤ v.day) (h6 : v.day ≤ daysInMonth v.year v.month) (h7 : v.hour ≤ 23)
    (h8 : v.minute ≤ 59) (h9 : v.second ≤ 59) (h10 : v.microsecond ≤ 999999)
    (htz : v.tzOffsetSecs = Option.none ∨
      ∃ off, v.tzOffsetSecs = some off ∧ off % 60 = 0 ∧ off.natAbs < 86400)
    (hstr : str = isoformat v) :
    ∃ w, from_iso_datetime str = .ok w ∧ isoformat w = str := by
  subst hstr
  obtain ⟨y, mo, d, h, mi, s, us, tzo⟩ := v
  exact ⟨_, from_iso_datetime_isoformat y mo d h mi s us tzo
    h1 h2 h3 h4 h5 h6 h7 h8 h9 h10 htz, rfl⟩

/-- Witness for C7 at the canonical string `2024-01-15T10:30:05.123456-05:30`. -/
theorem claim_C7_roundtrip_witness :
    ∃ w, from_iso_datetime "2024-01-15T10:30:05.123456-05:30" = .ok w ∧
      isoformat w = "2024-01-15T10:30:05.123456-05:30" :=
  claim_C7_roundtrip "2024-01-15T10:30:05.123456-05:30"
    ⟨2024, 1, 15, 10, 30, 5, 123456, some (-19800)⟩
    (by decide) (by decide) (by decide) (by decide) (by decide) (by decide)
    (by decide) (by decide) (by decide) (by decide)
    (Or.inr ⟨-19800, rfl, by decide, by decide⟩) rfl

/-- Claim C8: `timedelta_to_microseconds` returns exactly
`(days × 86400 + seconds) × 1,000,000 + microseconds` by integer
arithmetic (the embedding is over `Int`, with no floating-point
intermediate), together with the spec's concrete example. -/
theorem claim_C8_timedelta_to_microseconds (v : Timedelta) :
    timedelta_to_microseconds v =
      (v.days * 86400 + (v.seconds : Int)) * 1000000 + (v.microseconds : Int) ∧
    timedelta_to_microseconds v =
      v.days * 86400000000 + (v.seconds : Int) * 1000000 + (v.microseconds : Int) ∧
    timedelta_to_microseconds ⟨1, 2, 3⟩ = 86400 * 1000000 + 2 * 1000000 + 3 :=
  ⟨rfl, by unfold timedelta_to_microseconds; ring, by decide⟩

/-- Claim C9: the `missing` sentinel is a unique falsy singleton distinct
from `None`: its type has exactly one element (so equality is identity and
there is one instance), `__bool__` is `False`, and both `__copy__` and
`__deepcopy__` return the very same instance. -/
theorem claim_C9_missing_sentinel :
    (∀ a b : MissingType, a = b) ∧
    missing.toBool = false ∧
    missing.copy = missing ∧
    (∀ memo, missing.deepcopy memo = missing) ∧
    PyVal.missingV ≠ PyVal.none :=
  ⟨fun a b => by cases a; cases b; rfl, rfl, rfl, fun _ => rfl,
    fun h => PyVal.noConfusion h⟩

/-- Claim C10: `set_value` is atomic on failure: if it reports the
path-conflict `ValueError`, the dict it leaves behind is exactly the input
dict — the conflict is always detected before any mutation happens. -/
theorem claim_C10_set_value_atomic (d : Dct) (key : String) (v : PyVal)
    (e : String) (h : (set_value d key v).2 = some e) :
    (set_value d key v).1 = d := by
  by_cases hdot : '.' ∈ key.toList
  · rw [set_value, if_pos hdot] at h ⊢
    exact setValueAux_error_preserves (splitDot key) d [] v e h
  · rw [set_value, if_neg hdot] at h
    exact Option.noConfusion h

/-- Witness for C10 at the conflicting call `set_value({"a": 1}, "a.b.c", 4)`. -/
theorem claim_C10_set_value_atomic_witness :
    (set_value [("a", PyVal.int 1)] "a.b.c" (PyVal.int 4)).1 =
      [("a", PyVal.int 1)] :=
  claim_C10_set_value_atomic [("a", PyVal.int 1)] "a.b.c" (PyVal.int 4)
    "String path conflicts with current dictionary structure at a" rfl

end Marshmallow
